import Mathlib

/-!
Shallow embedding of the fence-flow inventory tracker backend
(Express + SQLite REST API).  The database is modelled as lists of rows;
each route handler becomes a pure function from a request and a database
state to a response value and a new database state.  SQL statements are
translated one by one: `db.get` with a `WHERE` clause becomes `List.find?`,
`INSERT` appends a row, `UPDATE ... WHERE id = ?` maps over the rows, and
`DELETE ... WHERE id = ?` filters them out.  Machine integers stored in the
database (`stock_quantity`, quantities, prices) are modelled as `Int`,
since SQLite integers are signed and the express-validator checks are the
only guards on their sign.
-/

/-- A row of the `users` table (the columns the verified routes read). -/
structure User where
  id : Nat
  role : String
  name : String
  agency_name : String
  deriving DecidableEq, Repr

/-- A row of the `projects` table. -/
structure Project where
  id : Nat
  name : String
  deriving DecidableEq, Repr

/-- A row of the `products` table. -/
structure Product where
  id : Nat
  name : String
  sku : String
  price : Int
  stock_quantity : Int
  status : String
  deriving DecidableEq, Repr

/-- A row of the `orders` table. -/
structure Order where
  id : Nat
  order_number : String
  user_id : Nat
  project_id : Option Nat
  status : String
  total_amount : Int
  created_at : Nat
  deriving DecidableEq, Repr

/-- A row of the `order_items` table. -/
structure OrderItem where
  order_id : Nat
  product_id : Nat
  quantity : Int
  unit_price : Int
  total_price : Int
  deriving DecidableEq, Repr

/-- A row of the `inventory_transactions` ledger table. -/
structure InvTxn where
  product_id : Nat
  transaction_type : String
  quantity : Int
  reference_type : String
  reference_id : Option Nat
  created_by : Nat
  deriving DecidableEq, Repr

/-- The whole database state.  `next_order_id` and `next_product_id` model
SQLite's autoincrementing row ids (`result.lastID`).  `categories` keeps
just the ids, which is all the verified routes consult. -/
structure DB where
  users : List User
  projects : List Project
  categories : List Nat
  products : List Product
  orders : List Order
  order_items : List OrderItem
  inventory_transactions : List InvTxn
  next_order_id : Nat
  next_product_id : Nat
  deriving DecidableEq, Repr

/-- `SELECT ... FROM products WHERE id = ?` (`db.get` returns the first row). -/
def findProduct (db : DB) (pid : Nat) : Option Product :=
  db.products.find? (fun p => p.id == pid)

/-- `SELECT ... FROM products WHERE id = ? AND status = "active"`. -/
def findActiveProduct (db : DB) (pid : Nat) : Option Product :=
  db.products.find? (fun p => p.id == pid && p.status == "active")

/-- The current stock of product `pid`, if such a row exists. -/
def stockOf (db : DB) (pid : Nat) : Option Int :=
  (findProduct db pid).map Product.stock_quantity

/-- `UPDATE products SET stock_quantity = ? WHERE id = ?`. -/
def setStock (db : DB) (pid : Nat) (q : Int) : DB :=
  { db with products :=
      db.products.map (fun p => if p.id == pid then { p with stock_quantity := q } else p) }

/-- `INSERT INTO inventory_transactions ...`. -/
def addTxn (db : DB) (t : InvTxn) : DB :=
  { db with inventory_transactions := db.inventory_transactions ++ [t] }

/-! ## POST /api/orders (create order), backend/routes/orders.js -/

/-- One element of the request's `items` array. -/
structure OrderItemReq where
  product_id : Nat
  quantity : Int
  deriving DecidableEq, Repr

/-- The body of a POST /api/orders request (the fields the handler reads). -/
structure CreateOrderReq where
  project_id : Option Nat
  items : List OrderItemReq
  deriving DecidableEq, Repr

/-- Outcome of POST /api/orders. `invalid` is the express-validator 400 with
an `errors` array; `badRequest` is a 400 with `{ error: msg }`;
`created` is the 201 response. -/
inductive CreateOrderResult where
  | invalid : CreateOrderResult
  | badRequest : String → CreateOrderResult
  | created : Nat → CreateOrderResult
  deriving DecidableEq, Repr

/-- HTTP status of a POST /api/orders outcome. -/
def CreateOrderResult.httpStatus : CreateOrderResult → Nat
  | .invalid => 400
  | .badRequest _ => 400
  | .created _ => 201

/-- The express-validator checks on the body: `items` is a non-empty array
and each item has an integer quantity at least 1. -/
def validOrderReq (req : CreateOrderReq) : Bool :=
  !req.items.isEmpty && req.items.all (fun it => 1 ≤ it.quantity)

/-- The `if (project_id)` guard: when a project id is supplied it must
name an existing `projects` row. -/
def projectOk (db : DB) : Option Nat → Bool
  | none => true
  | some pid => (db.projects.find? (fun p => p.id == pid)).isSome

/-- A validated line item: the request item together with the product row
read during validation (the handler keeps this snapshot in
`validatedItems` and later writes `item.product.stock_quantity - item.quantity`). -/
structure VItem where
  product_id : Nat
  quantity : Int
  product : Product
  unit_price : Int
  total_price : Int
  deriving DecidableEq, Repr

/-- The validation loop of the create-order handler: for each item, look up
the active product, check stock, and accumulate the validated items and the
running total. -/
def validateItems (db : DB) : List OrderItemReq → Except String (List VItem × Int)
  | [] => .ok ([], 0)
  | it :: rest =>
    match findActiveProduct db it.product_id with
    | none => .error ("Product " ++ toString it.product_id ++ " not found or inactive")
    | some p =>
      if p.stock_quantity < it.quantity then
        .error ("Insufficient stock for " ++ p.name)
      else
        match validateItems db rest with
        | .error e => .error e
        | .ok (vs, total) =>
          .ok (⟨it.product_id, it.quantity, p, p.price, p.price * it.quantity⟩ :: vs,
               p.price * it.quantity + total)

/-- The write loop of the create-order handler: insert the order_items row,
overwrite the product stock with the validation-time snapshot minus the
quantity, and append the 'out' ledger row. -/
def insertItems (orderId : Nat) (uid : Nat) : DB → List VItem → DB
  | db, [] => db
  | db, v :: rest =>
    let db1 := { db with order_items :=
        db.order_items ++ [⟨orderId, v.product_id, v.quantity, v.unit_price, v.total_price⟩] }
    let db2 := setStock db1 v.product_id (v.product.stock_quantity - v.quantity)
    let db3 := addTxn db2 ⟨v.product_id, "out", v.quantity, "order", some orderId, uid⟩
    insertItems orderId uid db3 rest

/-- POST /api/orders.  `now` and `orderNumber` stand for the wall clock and
the generated `ORD-...` number, which the handler takes from the
environment. -/
def createOrder (db : DB) (uid : Nat) (req : CreateOrderReq)
    (now : Nat) (orderNumber : String) : CreateOrderResult × DB :=
  if !validOrderReq req then (.invalid, db)
  else if !projectOk db req.project_id then (.badRequest "Project not found", db)
  else
    match validateItems db req.items with
    | .error e => (.badRequest e, db)
    | .ok (vs, total) =>
      let orderId := db.next_order_id
      let db1 := { db with
        orders := db.orders ++ [⟨orderId, orderNumber, uid, req.project_id, "pending", total, now⟩],
        next_order_id := orderId + 1 }
      (.created orderId, insertItems orderId uid db1 vs)

/-! ## PATCH /api/orders/:id/status, backend/routes/orders.js -/

/-- Outcome of PATCH /api/orders/:id/status.  `serverError` is the 500 the
catch block produces when the restore loop dereferences a missing product. -/
inductive StatusResult where
  | invalid : StatusResult
  | notFound : StatusResult
  | serverError : StatusResult
  | ok : StatusResult
  deriving DecidableEq, Repr

/-- The `isIn([...])` validator on the `status` body field. -/
def validStatus (s : String) : Bool :=
  s == "pending" || s == "approved" || s == "processing" ||
  s == "shipped" || s == "delivered" || s == "cancelled"

/-- The inventory-restore loop run on cancellation: for each order item,
read the current stock fresh, add the ordered quantity back, and append an
'in' ledger row.  Returns `false` when a product row is missing (the
JavaScript throws and the handler answers 500, keeping the writes made so
far). -/
def restoreItems (adminId orderId : Nat) : DB → List OrderItem → DB × Bool
  | db, [] => (db, true)
  | db, it :: rest =>
    match findProduct db it.product_id with
    | none => (db, false)
    | some p =>
      let db1 := setStock db it.product_id (p.stock_quantity + it.quantity)
      let db2 := addTxn db1 ⟨it.product_id, "in", it.quantity, "order", some orderId, adminId⟩
      restoreItems adminId orderId db2 rest

/-- `UPDATE orders SET status = ? WHERE id = ?`. -/
def setOrderStatus (db : DB) (orderId : Nat) (s : String) : DB :=
  { db with orders := db.orders.map (fun o => if o.id == orderId then { o with status := s } else o) }

/-- PATCH /api/orders/:id/status (admin only). -/
def updateOrderStatus (db : DB) (adminId orderId : Nat) (newStatus : String) :
    StatusResult × DB :=
  if !validStatus newStatus then (.invalid, db)
  else
    match db.orders.find? (fun o => o.id == orderId) with
    | none => (.notFound, db)
    | some order =>
      let db1 := setOrderStatus db orderId newStatus
      if newStatus == "cancelled" && order.status != "cancelled" then
        let items := db1.order_items.filter (fun it => it.order_id == orderId)
        match restoreItems adminId orderId db1 items with
        | (db2, true) => (.ok, db2)
        | (db2, false) => (.serverError, db2)
      else (.ok, db1)

/-! ## PATCH /api/products/:id/stock, products route -/

/-- Outcome of PATCH /api/products/:id/stock. -/
inductive StockResult where
  | invalid : StockResult
  | notFound : StockResult
  | badRequest : String → StockResult
  | ok : StockResult
  deriving DecidableEq, Repr

/-- The `isIn(['in', 'out', 'adjustment'])` validator on `type`.  Note the
`quantity` field is validated with a bare `isInt()`: any integer, negative
ones included, passes. -/
def validStockType (t : String) : Bool :=
  t == "in" || t == "out" || t == "adjustment"

/-- PATCH /api/products/:id/stock (admin only). -/
def updateStock (db : DB) (adminId pid : Nat) (quantity : Int) (ttype : String) :
    StockResult × DB :=
  if !validStockType ttype then (.invalid, db)
  else
    match findProduct db pid with
    | none => (.notFound, db)
    | some p =>
      if ttype == "in" then
        let db1 := setStock db pid (p.stock_quantity + quantity)
        (.ok, addTxn db1 ⟨pid, ttype, quantity, "manual", none, adminId⟩)
      else if ttype == "out" then
        let nq := p.stock_quantity - quantity
        if nq < 0 then (.badRequest "Insufficient stock", db)
        else
          let db1 := setStock db pid nq
          (.ok, addTxn db1 ⟨pid, ttype, quantity, "manual", none, adminId⟩)
      else
        let db1 := setStock db pid quantity
        (.ok, addTxn db1 ⟨pid, ttype, quantity, "manual", none, adminId⟩)

/-! ## POST /api/products (create product), products route -/

/-- The body of a POST /api/products request (the fields the verified
claims consult). -/
structure CreateProductReq where
  name : String
  category_id : Nat
  sku : String
  price : Int
  stock_quantity : Option Int
  status : Option String
  deriving DecidableEq, Repr

/-- Outcome of POST /api/products. -/
inductive ProductResult where
  | invalid : ProductResult
  | badRequest : String → ProductResult
  | created : Nat → ProductResult
  deriving DecidableEq, Repr

/-- HTTP status of a POST /api/products outcome. -/
def ProductResult.httpStatus : ProductResult → Nat
  | .invalid => 400
  | .badRequest _ => 400
  | .created _ => 201

/-- The express-validator checks on the product body: non-empty name and
sku, price at least 0, optional stock_quantity at least 0, optional status
in the enumeration. -/
def validProductReq (r : CreateProductReq) : Bool :=
  (!(r.name == "")) && (!(r.sku == "")) && 0 ≤ r.price &&
  (match r.stock_quantity with | none => true | some q => 0 ≤ q) &&
  (match r.status with
   | none => true
   | some s => s == "active" || s == "inactive" || s == "discontinued")

/-- POST /api/products (admin only): reject a duplicate SKU, then an
unknown category, then insert the row with defaults
`stock_quantity = 0`, `status = 'active'`. -/
def createProduct (db : DB) (req : CreateProductReq) : ProductResult × DB :=
  if !validProductReq req then (.invalid, db)
  else if (db.products.find? (fun p => p.sku == req.sku)).isSome then
    (.badRequest "SKU already exists", db)
  else if !(db.categories.find? (fun c => c == req.category_id)).isSome then
    (.badRequest "Category not found", db)
  else
    let p : Product := ⟨db.next_product_id, req.name, req.sku, req.price,
      req.stock_quantity.getD 0, req.status.getD "active"⟩
    (.created db.next_product_id,
     { db with products := db.products ++ [p], next_product_id := db.next_product_id + 1 })

/-! ## DELETE /api/users/:id, users route -/

/-- Outcome of DELETE /api/users/:id. -/
inductive DeleteUserResult where
  | notFound : DeleteUserResult
  | badRequest : String → DeleteUserResult
  | ok : DeleteUserResult
  deriving DecidableEq, Repr

/-- `SELECT COUNT(*) FROM users WHERE role = "admin"`. -/
def adminCount (db : DB) : Nat :=
  (db.users.filter (fun u => u.role == "admin")).length

/-- DELETE /api/users/:id (admin only): 404 when missing, 400 when the
target is the last admin, 400 when the target has orders, otherwise delete
the row. -/
def deleteUser (db : DB) (targetId : Nat) : DeleteUserResult × DB :=
  match db.users.find? (fun u => u.id == targetId) with
  | none => (.notFound, db)
  | some u =>
    if u.role == "admin" && adminCount db ≤ 1 then
      (.badRequest "Cannot delete the last admin user", db)
    else if (db.orders.find? (fun o => o.user_id == targetId)).isSome then
      (.badRequest "Cannot delete user that has orders", db)
    else
      (.ok, { db with users := db.users.filter (fun v => !(v.id == targetId)) })

/-! ## GET /api/orders (list) and GET /api/orders/:id, backend/routes/orders.js -/

/-- The query parameters of GET /api/orders. -/
structure ListOrdersQuery where
  status : Option String
  user_id : Option Nat
  project_id : Option Nat
  page : Option Nat
  limit : Option Nat
  deriving DecidableEq, Repr

/-- The express-validator checks on the query string: status in the
enumeration, page at least 1, limit between 1 and 100. -/
def validListQuery (q : ListOrdersQuery) : Bool :=
  (match q.status with | none => true | some s => validStatus s) &&
  (match q.page with | none => true | some p => 1 ≤ p) &&
  (match q.limit with | none => true | some l => 1 ≤ l && l ≤ 100)

/-- The WHERE clause the handler builds: agency users are restricted to
their own orders; status, user_id (admin only) and project_id filters are
appended when supplied. -/
def orderFilter (u : User) (q : ListOrdersQuery) (o : Order) : Bool :=
  (if u.role == "agency" then o.user_id == u.id else true) &&
  (match q.status with | none => true | some s => o.status == s) &&
  (match q.user_id with
   | none => true
   | some uid => if u.role == "admin" then o.user_id == uid else true) &&
  (match q.project_id with | none => true | some pid => o.project_id == some pid)

/-- Insert an order into a list kept in descending `created_at` order. -/
def insertDesc (o : Order) : List Order → List Order
  | [] => [o]
  | x :: xs => if x.created_at < o.created_at then o :: x :: xs else x :: insertDesc o xs

/-- `ORDER BY o.created_at DESC` as an insertion sort. -/
def sortOrdersDesc : List Order → List Order
  | [] => []
  | x :: xs => insertDesc x (sortOrdersDesc xs)

/-- The row shape the list and get endpoints return: the order joined with
the user's name and agency and the project name (`LEFT JOIN`, so missing
rows give NULL). -/
structure OrderView where
  order : Order
  user_name : Option String
  agency_name : Option String
  project_name : Option String
  deriving DecidableEq, Repr

/-- The LEFT JOINs of the order queries. -/
def viewOrder (db : DB) (o : Order) : OrderView :=
  let u := db.users.find? (fun v => v.id == o.user_id)
  let pr := o.project_id.bind (fun pid => db.projects.find? (fun p => p.id == pid))
  ⟨o, u.map User.name, u.map User.agency_name, pr.map Project.name⟩

/-- The pagination object of the list response. -/
structure Pagination where
  page : Nat
  limit : Nat
  total : Nat
  pages : Nat
  deriving DecidableEq, Repr

/-- Outcome of GET /api/orders. -/
inductive ListOrdersResult where
  | invalid : ListOrdersResult
  | ok : List OrderView → Pagination → ListOrdersResult
  deriving DecidableEq, Repr

/-- GET /api/orders: filter, count, sort by created_at descending, and
return the `LIMIT ? OFFSET ?` slice with the pagination object
(`Math.ceil(total / limit)` over naturals is `(total + limit - 1) / limit`). -/
def listOrders (db : DB) (requester : User) (q : ListOrdersQuery) : ListOrdersResult :=
  if !validListQuery q then .invalid
  else
    let page := q.page.getD 1
    let limit := q.limit.getD 20
    let filtered := db.orders.filter (orderFilter requester q)
    let total := filtered.length
    let rows := ((sortOrdersDesc filtered).drop ((page - 1) * limit)).take limit
    .ok (rows.map (viewOrder db)) ⟨page, limit, total, (total + limit - 1) / limit⟩

/-- Outcome of GET /api/orders/:id. -/
inductive GetOrderResult where
  | notFound : GetOrderResult
  | forbidden : GetOrderResult
  | ok : OrderView → GetOrderResult
  deriving DecidableEq, Repr

/-- GET /api/orders/:id: 404 when missing, 403 when an agency user asks for
an order that is not theirs, otherwise the joined order. -/
def getOrder (db : DB) (requester : User) (oid : Nat) : GetOrderResult :=
  match db.orders.find? (fun o => o.id == oid) with
  | none => .notFound
  | some o =>
    if requester.role == "agency" && o.user_id != requester.id then .forbidden
    else .ok (viewOrder db o)

/-- The non-negative-stock invariant of claim C5. -/
def nonnegStock (db : DB) : Prop := ∀ p ∈ db.products, 0 ≤ p.stock_quantity

instance (db : DB) : Decidable (nonnegStock db) := by
  unfold nonnegStock; infer_instance

/-! ## Concrete fixtures used by witnesses and counterexamples -/

def wProduct : Product := ⟨1, "Widget", "SKU1", 2, 10, "active"⟩

def wAdmin : User := ⟨1, "admin", "Root", "HQ"⟩

def wDB : DB := ⟨[wAdmin], [⟨1, "Fence"⟩], [5], [wProduct], [], [], [], 1, 2⟩

def wOrderCancelled : Order := ⟨1, "N", 7, none, "cancelled", 0, 0⟩

def wDBCancelled : DB :=
  ⟨[wAdmin], [], [], [wProduct], [wOrderCancelled], [⟨1, 1, 3, 2, 6⟩], [], 2, 2⟩

def wDBAdmins : DB :=
  ⟨[⟨1, "admin", "Root", "HQ"⟩, ⟨2, "agency", "A", "B"⟩], [], [], [], [], [], [], 1, 1⟩

def wDBOrder : DB := ⟨[wAdmin], [], [], [⟨1, "Widget", "SKU1", 2, 4, "active"⟩],
  [⟨1, "N", 7, none, "pending", 12, 0⟩], [⟨1, 1, 3, 2, 6⟩], [], 2, 2⟩

def wDB2 : DB := ⟨[wAdmin], [⟨1, "Fence"⟩], [5],
  [⟨1, "Widget", "SKU1", 2, 10, "active"⟩, ⟨2, "Gadget", "SKU2", 3, 8, "active"⟩],
  [], [], [], 1, 3⟩

def wAgency : User := ⟨7, "agency", "Ann", "ACME"⟩

def wOrd7 : Order := ⟨1, "A", 7, none, "pending", 0, 5⟩

def wOrd8 : Order := ⟨2, "B", 8, none, "pending", 0, 3⟩

def wDBIso : DB := ⟨[wAdmin], [], [], [], [wOrd7, wOrd8], [], [], 3, 1⟩

def wDBIso2 : DB := ⟨[wAdmin], [], [], [], [wOrd7], [], [], 3, 1⟩

/-! ## Basic lemmas about the database primitives -/

theorem findProduct_id (db : DB) (pid : Nat) (p : Product)
    (h : findProduct db pid = some p) : p.id = pid := by
  have := List.find?_some (by simpa [findProduct] using h)
  simpa [beq_iff_eq] using this

theorem findProduct_mem (db : DB) (pid : Nat) (p : Product)
    (h : findProduct db pid = some p) : p ∈ db.products :=
  List.mem_of_find?_eq_some (by simpa [findProduct] using h)

theorem findProduct_setStock (db : DB) (pid pid' : Nat) (q : Int) :
    findProduct (setStock db pid q) pid' =
      (findProduct db pid').map
        (fun p => if p.id == pid then { p with stock_quantity := q } else p) := by
  unfold findProduct setStock
  have hpred : ((fun p : Product => p.id == pid') ∘
      (fun p => if p.id == pid then { p with stock_quantity := q } else p)) =
      (fun p : Product => p.id == pid') := by
    funext p
    by_cases h : (p.id == pid) = true <;> simp [h, Function.comp]
  simp only [List.find?_map, hpred]

theorem stockOf_setStock_self (db : DB) (pid : Nat) (q : Int) :
    stockOf (setStock db pid q) pid = (findProduct db pid).map (fun _ => q) := by
  unfold stockOf
  rw [findProduct_setStock]
  cases hf : findProduct db pid with
  | none => rfl
  | some p =>
    have hp : p.id = pid := findProduct_id db pid p hf
    simp [hp]

theorem stockOf_setStock_other (db : DB) (pid pid' : Nat) (q : Int) (h : pid' ≠ pid) :
    stockOf (setStock db pid q) pid' = stockOf db pid' := by
  unfold stockOf
  rw [findProduct_setStock]
  cases hf : findProduct db pid' with
  | none => rfl
  | some p =>
    have hp : p.id = pid' := findProduct_id db pid' p hf
    have hne : ¬ (p.id = pid) := by omega
    simp [hne]

theorem findProduct_setStock_isSome (db : DB) (pid pid' : Nat) (q : Int) :
    (findProduct (setStock db pid q) pid').isSome = (findProduct db pid').isSome := by
  rw [findProduct_setStock]
  cases findProduct db pid' <;> rfl

theorem findProduct_addTxn (db : DB) (t : InvTxn) (pid : Nat) :
    findProduct (addTxn db t) pid = findProduct db pid := rfl

theorem stockOf_addTxn (db : DB) (t : InvTxn) (pid : Nat) :
    stockOf (addTxn db t) pid = stockOf db pid := rfl

theorem nonnegStock_setStock (db : DB) (pid : Nat) (q : Int) (hq : 0 ≤ q)
    (h : nonnegStock db) : nonnegStock (setStock db pid q) := by
  intro x hx
  unfold setStock at hx
  simp only [List.mem_map] at hx
  obtain ⟨p, hp, rfl⟩ := hx
  by_cases hid : (p.id == pid) = true
  · simpa [hid] using hq
  · simpa [hid] using h p hp

theorem nonnegStock_addTxn (db : DB) (t : InvTxn) (h : nonnegStock db) :
    nonnegStock (addTxn db t) := h


/-! ## Claim C3: atomicity of order creation on rejection -/

/-- Claim C3: order creation is atomic on business-rule failure — whenever
POST /api/orders answers 400 (validation failure, unknown project, missing
or inactive product, or insufficient stock), the database state is
completely unchanged: no orders, order_items or inventory_transactions rows
are inserted and no stock is modified, because every item is validated
before the first write. -/
theorem createOrder_rejected_leaves_db_unchanged (db : DB) (uid : Nat)
    (req : CreateOrderReq) (now : Nat) (onum : String)
    (h : (createOrder db uid req now onum).1.httpStatus = 400) :
    (createOrder db uid req now onum).2 = db := by
  unfold createOrder at h ⊢
  cases hv : validOrderReq req with
  | false => simp [hv]
  | true =>
    simp only [hv, Bool.not_true, Bool.false_eq_true, if_false] at h ⊢
    cases hp : projectOk db req.project_id with
    | false => simp [hp]
    | true =>
      simp only [hp, Bool.not_true, Bool.false_eq_true, if_false] at h ⊢
      cases hval : validateItems db req.items with
      | error e => simp [hval]
      | ok vt =>
        obtain ⟨vs, total⟩ := vt
        rw [hval] at h
        simp [CreateOrderResult.httpStatus] at h

/-- Witness for C3 at a concrete rejected request (empty items list). -/
theorem createOrder_rejected_witness :
    (createOrder wDB 7 ⟨none, []⟩ 0 "N").1.httpStatus = 400 ∧
    (createOrder wDB 7 ⟨none, []⟩ 0 "N").2 = wDB :=
  ⟨by decide, createOrder_rejected_leaves_db_unchanged wDB 7 ⟨none, []⟩ 0 "N" (by decide)⟩

/-! ## Claim C6: cancellation is idempotent on stock -/

/-- Claim C6: a PATCH /api/orders/:id/status request with status
'cancelled' on an order that is already 'cancelled' leaves every product's
stock_quantity unchanged and inserts no inventory_transactions rows, so
repeating a cancellation never restores stock twice. -/
theorem cancel_cancelled_idempotent (db : DB) (adminId oid : Nat) (o : Order)
    (hfind : db.orders.find? (fun x => x.id == oid) = some o)
    (hc : o.status = "cancelled") :
    (updateOrderStatus db adminId oid "cancelled").1 = .ok ∧
    (updateOrderStatus db adminId oid "cancelled").2.products = db.products ∧
    (updateOrderStatus db adminId oid "cancelled").2.inventory_transactions
      = db.inventory_transactions := by
  unfold updateOrderStatus
  have hvs : validStatus "cancelled" = true := rfl
  simp only [hvs, Bool.not_true, Bool.false_eq_true, if_false, hfind]
  simp [hc, setOrderStatus]

/-- Witness for C6 at a concrete already-cancelled order. -/
theorem cancel_cancelled_witness :
    (updateOrderStatus wDBCancelled 1 1 "cancelled").1 = .ok ∧
    (updateOrderStatus wDBCancelled 1 1 "cancelled").2.products = wDBCancelled.products ∧
    (updateOrderStatus wDBCancelled 1 1 "cancelled").2.inventory_transactions
      = wDBCancelled.inventory_transactions :=
  cancel_cancelled_idempotent wDBCancelled 1 1 wOrderCancelled (by decide) (by decide)

/-! ## Claim C8: duplicate SKU rejection -/

/-- Claim C8: a POST /api/products request whose sku equals the sku of an
existing product row is answered with 400 ('SKU already exists' when the
body passes validation) and inserts no product row, so pairwise-distinct
SKUs are preserved by product creation. -/
theorem createProduct_sku_unique (db : DB) (req : CreateProductReq) :
    ((∃ p ∈ db.products, p.sku = req.sku) →
        (createProduct db req).1.httpStatus = 400 ∧ (createProduct db req).2 = db) ∧
    ((∃ p ∈ db.products, p.sku = req.sku) → validProductReq req = true →
        (createProduct db req).1 = .badRequest "SKU already exists") ∧
    ((db.products.map Product.sku).Nodup →
        ((createProduct db req).2.products.map Product.sku).Nodup) := by
  have hdup : (∃ p ∈ db.products, p.sku = req.sku) →
      (db.products.find? (fun p => p.sku == req.sku)).isSome = true := by
    intro hex
    rw [List.find?_isSome]
    obtain ⟨p, hp, he⟩ := hex
    exact ⟨p, hp, by simp [he]⟩
  refine ⟨?_, ?_, ?_⟩
  · intro hex
    unfold createProduct
    cases hv : validProductReq req with
    | false => simp [ProductResult.httpStatus]
    | true => simp [hdup hex, ProductResult.httpStatus]
  · intro hex hv
    unfold createProduct
    simp [hv, hdup hex]
  · intro hnd
    unfold createProduct
    cases hv : validProductReq req with
    | false => simpa using hnd
    | true =>
      cases hfind : db.products.find? (fun p => p.sku == req.sku) with
      | some p => simpa [hfind] using hnd
      | none =>
        cases hcat : db.categories.find? (fun c => c == req.category_id) with
        | none => simpa [hfind, hcat] using hnd
        | some c =>
          have hfresh : ∀ p ∈ db.products, ¬ p.sku = req.sku := by
            intro p hp
            have := List.find?_eq_none.mp hfind p hp
            simpa using this
          simp only [hfind, hcat, Option.isSome_none, Option.isSome_some, Bool.not_true,
            Bool.false_eq_true, if_false]
          simp only [List.map_append, List.map_cons, List.map_nil]
          rw [List.nodup_append]
          refine ⟨hnd, List.nodup_singleton _, ?_⟩
          intro a ha hb
          simp only [List.mem_map] at ha
          obtain ⟨p, hp, rfl⟩ := ha
          simp only [List.mem_singleton] at hb
          exact hfresh p hp hb

/-- Witness for C8 at a concrete duplicate-SKU request. -/
theorem createProduct_sku_witness :
    (createProduct wDB ⟨"Other", 5, "SKU1", 1, some 0, none⟩).1
      = .badRequest "SKU already exists" :=
  (createProduct_sku_unique wDB ⟨"Other", 5, "SKU1", 1, some 0, none⟩).2.1
    (by decide) (by decide)

/-! ## Claim C7: the single-admin floor on user deletion -/

theorem adminCount_delete (l : List User) (tid : Nat) (u : User)
    (hnd : (l.map User.id).Nodup)
    (hfind : l.find? (fun v => v.id == tid) = some u) :
    ((l.filter (fun v => !(v.id == tid))).filter (fun v => v.role == "admin")).length
      + (if u.role == "admin" then 1 else 0)
      = (l.filter (fun v => v.role == "admin")).length := by
  induction l with
  | nil => simp at hfind
  | cons h t ih =>
    rw [List.map_cons] at hnd
    have hh := (List.nodup_cons.mp hnd).1
    have hndt := (List.nodup_cons.mp hnd).2
    cases hid : (h.id == tid) with
    | true =>
      rw [List.find?_cons_of_pos (p := fun v => v.id == tid) t hid] at hfind
      have he : h = u := by injection hfind
      subst he
      have htid : h.id = tid := by simpa using hid
      have hrest : t.filter (fun v => !(v.id == tid)) = t := by
        rw [List.filter_eq_self]
        intro v hv
        have hvm : v.id ∈ t.map User.id := List.mem_map_of_mem User.id hv
        have hvne : ¬ (v.id = tid) := by
          intro he2
          rw [he2, ← htid] at hvm
          exact hh hvm
        simpa using hvne
      rw [List.filter_cons, hid]
      simp only [Bool.not_true, Bool.false_eq_true, if_false, hrest]
      rw [List.filter_cons]
      cases hadm : (h.role == "admin") <;> simp [hadm]
    | false =>
      rw [List.find?_cons_of_neg (p := fun v => v.id == tid) t (by simp [hid])] at hfind
      have hrec := ih hndt hfind
      rw [List.filter_cons]
      simp only [hid, Bool.not_false, if_true]
      rw [List.filter_cons, List.filter_cons]
      cases hadm : (h.role == "admin") <;> simp only [hadm, if_true, if_false,
        Bool.false_eq_true, List.length_cons] <;> omega

/-- Claim C7: DELETE /api/users/:id preserves the at-least-one-admin
invariant.  If the target user is an admin and the number of admin rows is
at most one, the handler answers 400 ('Cannot delete the last admin user')
and deletes nothing; and (with distinct user ids, the primary key) no
deletion can bring the admin count from at least one to zero. -/
theorem deleteUser_preserves_admin_floor (db : DB) (tid : Nat) :
    (∀ u, db.users.find? (fun v => v.id == tid) = some u → u.role = "admin" →
      adminCount db ≤ 1 →
      deleteUser db tid = (.badRequest "Cannot delete the last admin user", db)) ∧
    ((db.users.map User.id).Nodup → 1 ≤ adminCount db →
      1 ≤ adminCount (deleteUser db tid).2) := by
  constructor
  · intro u hfind hrole hcount
    unfold deleteUser
    rw [hfind]
    simp [hrole, hcount]
  · intro hnd hcount
    unfold deleteUser
    cases hfind : db.users.find? (fun v => v.id == tid) with
    | none => simpa using hcount
    | some u =>
      cases hadm : (u.role == "admin" && decide (adminCount db ≤ 1)) with
      | true => simpa [hfind, hadm] using hcount
      | false =>
        cases hord : (db.orders.find? (fun o => o.user_id == tid)).isSome with
        | true => simpa [hfind, hadm, hord] using hcount
        | false =>
          have hkey := adminCount_delete db.users tid u hnd hfind
          simp only [hfind, hadm, hord, Bool.false_eq_true, if_false]
          unfold adminCount at hcount hkey ⊢
          simp only []
          cases hua : (u.role == "admin") with
          | true =>
            have h2 : ¬ (adminCount db ≤ 1) := by
              intro hle
              rw [hua] at hadm
              simp [hle] at hadm
            unfold adminCount at h2
            rw [hua] at hkey
            simp only [if_true] at hkey
            omega
          | false =>
            rw [hua] at hkey
            simp only [Bool.false_eq_true, if_false] at hkey
            omega

/-- Witness for C7: deleting the only admin is refused; deleting the agency
user keeps an admin. -/
theorem deleteUser_admin_floor_witness :
    deleteUser wDBAdmins 1 = (.badRequest "Cannot delete the last admin user", wDBAdmins) ∧
    1 ≤ adminCount (deleteUser wDBAdmins 2).2 :=
  ⟨(deleteUser_preserves_admin_floor wDBAdmins 1).1 ⟨1, "admin", "Root", "HQ"⟩
      (by decide) (by decide) (by decide),
   (deleteUser_preserves_admin_floor wDBAdmins 2).2 (by decide) (by decide)⟩

/-! ## Facts about the order-validation loop -/

theorem validateItems_ok_facts (db : DB) (its : List OrderItemReq) (vs : List VItem)
    (total : Int) (h : validateItems db its = .ok (vs, total)) :
    (∀ v ∈ vs, findActiveProduct db v.product_id = some v.product ∧
      v.quantity ≤ v.product.stock_quantity) ∧
    vs.map (fun v => (v.product_id, v.quantity))
      = its.map (fun it => (it.product_id, it.quantity)) := by
  induction its generalizing vs total with
  | nil =>
    unfold validateItems at h
    injection h with hp
    simp only [Prod.mk.injEq] at hp
    obtain ⟨h1, -⟩ := hp
    subst h1
    simp
  | cons it rest ih =>
    unfold validateItems at h
    cases hfa : findActiveProduct db it.product_id with
    | none => simp [hfa] at h
    | some p =>
      simp only [hfa] at h
      by_cases hlt : p.stock_quantity < it.quantity
      · simp [hlt] at h
      · rw [if_neg hlt] at h
        cases hrec : validateItems db rest with
        | error e => simp [hrec] at h
        | ok vt =>
          obtain ⟨vs', total'⟩ := vt
          simp only [hrec] at h
          injection h with hp
          simp only [Prod.mk.injEq] at hp
          obtain ⟨h1, -⟩ := hp
          subst h1
          obtain ⟨ihf, ihm⟩ := ih vs' total' hrec
          constructor
          · intro v hv
            rcases List.mem_cons.mp hv with rfl | hv'
            · refine ⟨hfa, ?_⟩
              show it.quantity ≤ p.stock_quantity
              omega
            · exact ihf v hv'
          · simp only [List.map_cons, ihm]

theorem validateItems_ok_of_good (db : DB) (its : List OrderItemReq)
    (h : ∀ it ∈ its, ∃ p, findActiveProduct db it.product_id = some p ∧
      it.quantity ≤ p.stock_quantity) :
    ∃ vs total, validateItems db its = .ok (vs, total) := by
  induction its with
  | nil => exact ⟨[], 0, rfl⟩
  | cons it rest ih =>
    obtain ⟨p, hp, hq⟩ := h it (List.mem_cons_self it rest)
    obtain ⟨vs, total, hrec⟩ := ih (fun x hx => h x (List.mem_cons_of_mem it hx))
    refine ⟨⟨it.product_id, it.quantity, p, p.price, p.price * it.quantity⟩ :: vs,
      p.price * it.quantity + total, ?_⟩
    unfold validateItems
    simp only [hp, if_neg (by omega : ¬ p.stock_quantity < it.quantity), hrec]

theorem validateItems_error_of_bad (db : DB) (its : List OrderItemReq)
    (h : ∃ it ∈ its, findActiveProduct db it.product_id = none ∨
      ∃ p, findActiveProduct db it.product_id = some p ∧ p.stock_quantity < it.quantity) :
    ∃ e, validateItems db its = .error e := by
  induction its with
  | nil => simp at h
  | cons it rest ih =>
    unfold validateItems
    cases hfa : findActiveProduct db it.product_id with
    | none => exact ⟨_, rfl⟩
    | some p =>
      by_cases hlt : p.stock_quantity < it.quantity
      · exact ⟨"Insufficient stock for " ++ p.name, by simp [hlt]⟩
      · have hrest : ∃ x ∈ rest, findActiveProduct db x.product_id = none ∨
            ∃ p', findActiveProduct db x.product_id = some p' ∧
              p'.stock_quantity < x.quantity := by
          obtain ⟨x, hx, hbad⟩ := h
          rcases List.mem_cons.mp hx with rfl | hx'
          · rcases hbad with hnone | ⟨p', hp', hlt'⟩
            · rw [hfa] at hnone
              cases hnone
            · rw [hfa] at hp'
              injection hp' with he
              subst he
              exact absurd hlt' hlt
          · exact ⟨x, hx', hbad⟩
        obtain ⟨e, he⟩ := ih hrest
        exact ⟨e, by simp [hlt, he]⟩

theorem validateItems_insufficient_msg (db : DB) (its : List OrderItemReq)
    (hall : ∀ it ∈ its, (findActiveProduct db it.product_id).isSome)
    (h : ∃ it ∈ its, ∃ p, findActiveProduct db it.product_id = some p ∧
      p.stock_quantity < it.quantity) :
    ∃ nm, validateItems db its = .error ("Insufficient stock for " ++ nm) := by
  induction its with
  | nil => simp at h
  | cons it rest ih =>
    unfold validateItems
    cases hfa : findActiveProduct db it.product_id with
    | none =>
      have hs := hall it (List.mem_cons_self it rest)
      rw [hfa] at hs
      simp at hs
    | some p =>
      by_cases hlt : p.stock_quantity < it.quantity
      · exact ⟨p.name, by simp [hlt]⟩
      · have hrest : ∃ x ∈ rest, ∃ p', findActiveProduct db x.product_id = some p' ∧
            p'.stock_quantity < x.quantity := by
          obtain ⟨x, hx, p', hp', hlt'⟩ := h
          rcases List.mem_cons.mp hx with rfl | hx'
          · rw [hfa] at hp'
            injection hp' with he
            subst he
            exact absurd hlt' hlt
          · exact ⟨x, hx', p', hp', hlt'⟩
        obtain ⟨nm, hnm⟩ := ih (fun x hx => hall x (List.mem_cons_of_mem it hx)) hrest
        exact ⟨nm, by simp [hlt, hnm]⟩

/-! ## Preservation of the non-negative-stock invariant -/

theorem nonnegStock_insertItems (oid uid : Nat) (vs : List VItem) :
    ∀ (db : DB), nonnegStock db →
      (∀ v ∈ vs, 0 ≤ v.product.stock_quantity - v.quantity) →
      nonnegStock (insertItems oid uid db vs) := by
  induction vs with
  | nil =>
    intro db hdb _
    exact hdb
  | cons v rest ih =>
    intro db hdb hvs
    unfold insertItems
    apply ih
    · apply nonnegStock_addTxn
      apply nonnegStock_setStock
      · exact hvs v (List.mem_cons_self v rest)
      · exact hdb
    · intro x hx
      exact hvs x (List.mem_cons_of_mem v hx)

theorem nonnegStock_restoreItems (a oid : Nat) (l : List OrderItem) :
    ∀ (db : DB), nonnegStock db → (∀ it ∈ l, 0 ≤ it.quantity) →
      nonnegStock (restoreItems a oid db l).1 := by
  induction l with
  | nil =>
    intro db hdb _
    exact hdb
  | cons it rest ih =>
    intro db hdb hl
    unfold restoreItems
    cases hf : findProduct db it.product_id with
    | none => exact hdb
    | some p =>
      apply ih
      · apply nonnegStock_addTxn
        apply nonnegStock_setStock
        · have hp : 0 ≤ p.stock_quantity := hdb p (findProduct_mem db it.product_id p hf)
          have hq : 0 ≤ it.quantity := hl it (List.mem_cons_self it rest)
          omega
        · exact hdb
      · intro x hx
        exact hl x (List.mem_cons_of_mem it hx)

theorem nonnegStock_createProduct (db : DB) (req : CreateProductReq)
    (hdb : nonnegStock db) : nonnegStock (createProduct db req).2 := by
  unfold createProduct
  cases hv : validProductReq req with
  | false => simpa using hdb
  | true =>
    cases hfind : db.products.find? (fun p => p.sku == req.sku) with
    | some p => simpa [hfind] using hdb
    | none =>
      cases hcat : db.categories.find? (fun c => c == req.category_id) with
      | none => simpa [hfind, hcat] using hdb
      | some c =>
        simp only [hfind, hcat, Option.isSome_none, Option.isSome_some, Bool.not_true,
          Bool.not_false, Bool.false_eq_true, if_false, if_true]
        intro x hx
        rcases List.mem_append.mp hx with hx' | hx'
        · exact hdb x hx'
        · have hst : 0 ≤ req.stock_quantity.getD 0 := by
            unfold validProductReq at hv
            cases hsq : req.stock_quantity with
            | none => simp
            | some q =>
              rw [hsq] at hv
              simp only [Bool.and_eq_true, decide_eq_true_eq] at hv
              simpa using hv.1.2
          simp only [List.mem_singleton] at hx'
          subst hx'
          exact hst

theorem nonnegStock_updateStock_out (db : DB) (a pid : Nat) (q : Int)
    (hdb : nonnegStock db) : nonnegStock (updateStock db a pid q "out").2 := by
  unfold updateStock
  have h1 : validStockType "out" = true := by decide
  have h2 : (("out" : String) == "in") = false := by decide
  have h3 : (("out" : String) == "out") = true := by decide
  simp only [h1, h2, h3, Bool.not_true, Bool.false_eq_true, if_false, if_true]
  cases hf : findProduct db pid with
  | none => exact hdb
  | some p =>
    by_cases hneg : p.stock_quantity - q < 0
    · simp only [if_pos hneg]
      exact hdb
    · simp only [if_neg hneg]
      apply nonnegStock_addTxn
      apply nonnegStock_setStock
      · omega
      · exact hdb

theorem nonnegStock_updateStock_nonneg (db : DB) (a pid : Nat) (q : Int) (t : String)
    (hq : 0 ≤ q) (ht : t = "in" ∨ t = "adjustment") (hdb : nonnegStock db) :
    nonnegStock (updateStock db a pid q t).2 := by
  rcases ht with rfl | rfl
  · unfold updateStock
    have h1 : validStockType "in" = true := by decide
    have h2 : (("in" : String) == "in") = true := by decide
    simp only [h1, h2, Bool.not_true, Bool.false_eq_true, if_false, if_true]
    cases hf : findProduct db pid with
    | none => exact hdb
    | some p =>
      apply nonnegStock_addTxn
      apply nonnegStock_setStock
      · have hp : 0 ≤ p.stock_quantity := hdb p (findProduct_mem db pid p hf)
        omega
      · exact hdb
  · unfold updateStock
    have h1 : validStockType "adjustment" = true := by decide
    have h2 : (("adjustment" : String) == "in") = false := by decide
    have h3 : (("adjustment" : String) == "out") = false := by decide
    simp only [h1, h2, h3, Bool.not_true, Bool.false_eq_true, if_false, if_true]
    cases hf : findProduct db pid with
    | none => exact hdb
    | some p =>
      apply nonnegStock_addTxn
      apply nonnegStock_setStock
      · exact hq
      · exact hdb

theorem nonnegStock_createOrder (db : DB) (uid : Nat) (req : CreateOrderReq)
    (now : Nat) (onum : String) (hdb : nonnegStock db) :
    nonnegStock (createOrder db uid req now onum).2 := by
  unfold createOrder
  cases hv : validOrderReq req with
  | false => simpa using hdb
  | true =>
    simp only [Bool.not_true, Bool.false_eq_true, if_false]
    cases hp : projectOk db req.project_id with
    | false => simpa using hdb
    | true =>
      simp only [Bool.not_true, Bool.false_eq_true, if_false]
      cases hval : validateItems db req.items with
      | error e => exact hdb
      | ok vt =>
        obtain ⟨vs, total⟩ := vt
        apply nonnegStock_insertItems
        · exact hdb
        · intro v hv'
          have hfact := (validateItems_ok_facts db req.items vs total hval).1 v hv'
          have := hfact.2
          omega

theorem nonnegStock_restore_branch (a oid : Nat) (db : DB) (l : List OrderItem)
    (h : nonnegStock (restoreItems a oid db l).1) :
    nonnegStock ((match restoreItems a oid db l with
      | (db2, true) => (StatusResult.ok, db2)
      | (db2, false) => (StatusResult.serverError, db2)).2) := by
  rcases hr : restoreItems a oid db l with ⟨db2, b⟩
  rw [hr] at h
  cases b
  · exact h
  · exact h

theorem nonnegStock_updateOrderStatus (db : DB) (a oid : Nat) (s : String)
    (hq : ∀ it ∈ db.order_items, 0 ≤ it.quantity) (hdb : nonnegStock db) :
    nonnegStock (updateOrderStatus db a oid s).2 := by
  unfold updateOrderStatus
  cases hv : validStatus s with
  | false => simpa using hdb
  | true =>
    simp only [Bool.not_true, Bool.false_eq_true, if_false]
    cases hfind : db.orders.find? (fun o => o.id == oid) with
    | none => exact hdb
    | some o =>
      cases hg : (s == "cancelled" && o.status != "cancelled") with
      | false =>
        simp only [hg, Bool.false_eq_true, if_false]
        exact hdb
      | true =>
        simp only [hg, if_true]
        exact nonnegStock_restore_branch a oid _ _
          (nonnegStock_restoreItems a oid _ _ hdb
            (fun it hit => hq it (List.mem_filter.mp hit).1))

/-! ## Claim C5: the non-negative-stock invariant -/

/-- Claim C5 counterexample: the PATCH /api/products/:id/stock validator
accepts any integer quantity, and an 'adjustment' writes the raw quantity
into stock_quantity, so a negative adjustment drives a product's stock
below zero — the claimed invariant is not preserved by every stock-writing
operation. -/
theorem stock_adjustment_negative_cex :
    nonnegStock wDB ∧
    (updateStock wDB 1 1 (-1) "adjustment").1 = .ok ∧
    stockOf (updateStock wDB 1 1 (-1) "adjustment").2 1 = some (-1) :=
  ⟨by decide, by decide, by decide⟩

/-- Claim C5 (amended): starting from a database with all stocks
non-negative, the invariant is preserved by product creation, by stock
transactions of type 'out', by stock transactions of type 'in' or
'adjustment' whose request quantity is non-negative, by order creation, and
by every order-status update (cancellation included) provided the stored
order_items quantities are non-negative; the unrestricted claim fails only
for 'in'/'adjustment' requests with a negative quantity, which the
validator does not reject. -/
theorem nonneg_stock_preserved_amended (db : DB) (hdb : nonnegStock db) :
    (∀ req, nonnegStock (createProduct db req).2) ∧
    (∀ a pid q, nonnegStock (updateStock db a pid q "out").2) ∧
    (∀ a pid q t, 0 ≤ q → (t = "in" ∨ t = "adjustment") →
      nonnegStock (updateStock db a pid q t).2) ∧
    (∀ uid req now onum, nonnegStock (createOrder db uid req now onum).2) ∧
    (∀ a oid s, (∀ it ∈ db.order_items, 0 ≤ it.quantity) →
      nonnegStock (updateOrderStatus db a oid s).2) :=
  ⟨fun req => nonnegStock_createProduct db req hdb,
   fun a pid q => nonnegStock_updateStock_out db a pid q hdb,
   fun a pid q t hq ht => nonnegStock_updateStock_nonneg db a pid q t hq ht hdb,
   fun uid req now onum => nonnegStock_createOrder db uid req now onum hdb,
   fun a oid s hq => nonnegStock_updateOrderStatus db a oid s hq hdb⟩

/-- Witness for the amended C5 at a concrete database. -/
theorem nonneg_stock_preserved_witness :
    nonnegStock (updateStock wDB 1 1 5 "out").2 ∧
    nonnegStock (updateStock wDB 1 1 2 "in").2 ∧
    nonnegStock (createOrder wDB 7 ⟨none, [⟨1, 3⟩]⟩ 0 "N").2 ∧
    nonnegStock (updateOrderStatus wDB 1 1 "cancelled").2 :=
  ⟨(nonneg_stock_preserved_amended wDB (by decide)).2.1 1 1 5,
   (nonneg_stock_preserved_amended wDB (by decide)).2.2.1 1 1 2 "in"
     (by decide) (Or.inl rfl),
   (nonneg_stock_preserved_amended wDB (by decide)).2.2.2.1 7 ⟨none, [⟨1, 3⟩]⟩ 0 "N",
   (nonneg_stock_preserved_amended wDB (by decide)).2.2.2.2 1 1 "cancelled" (by decide)⟩

/-! ## Claim C2: rejection of bad line items -/

/-- Claim C2: for a request that passes body validation and the project
check, an item referencing no active product row makes the handler answer
400; and when every item references an active product but some item's
quantity exceeds that product's current stock, the handler answers 400 with
an insufficient-stock error message. -/
theorem createOrder_insufficient_or_missing_400 (db : DB) (uid : Nat)
    (req : CreateOrderReq) (now : Nat) (onum : String)
    (hv : validOrderReq req = true) (hp : projectOk db req.project_id = true) :
    ((∃ it ∈ req.items, findActiveProduct db it.product_id = none) →
      (createOrder db uid req now onum).1.httpStatus = 400) ∧
    ((∀ it ∈ req.items, (findActiveProduct db it.product_id).isSome) →
     (∃ it ∈ req.items, ∃ p, findActiveProduct db it.product_id = some p ∧
        p.stock_quantity < it.quantity) →
      ∃ nm, (createOrder db uid req now onum).1
        = .badRequest ("Insufficient stock for " ++ nm)) := by
  constructor
  · intro hex
    obtain ⟨e, he⟩ := validateItems_error_of_bad db req.items
      (by obtain ⟨it, hit, hn⟩ := hex; exact ⟨it, hit, Or.inl hn⟩)
    unfold createOrder
    simp [hv, hp, he, CreateOrderResult.httpStatus]
  · intro hall hex
    obtain ⟨nm, hnm⟩ := validateItems_insufficient_msg db req.items hall hex
    refine ⟨nm, ?_⟩
    unfold createOrder
    simp [hv, hp, hnm]

/-- Witness for C2: a request for a missing product id and a request
overshooting the stock, both on the concrete database. -/
theorem createOrder_reject_witness :
    (createOrder wDB 7 ⟨none, [⟨2, 1⟩]⟩ 0 "N").1.httpStatus = 400 ∧
    (∃ nm, (createOrder wDB 7 ⟨none, [⟨1, 99⟩]⟩ 0 "N").1
      = .badRequest ("Insufficient stock for " ++ nm)) :=
  ⟨(createOrder_insufficient_or_missing_400 wDB 7 ⟨none, [⟨2, 1⟩]⟩ 0 "N"
      (by decide) (by decide)).1 (by decide),
   (createOrder_insufficient_or_missing_400 wDB 7 ⟨none, [⟨1, 99⟩]⟩ 0 "N"
      (by decide) (by decide)).2 (by decide)
      ⟨⟨1, 99⟩, by decide, wProduct, by decide, by decide⟩⟩

/-! ## Claim C4: cancellation restores inventory -/

theorem restoreItems_effects (a oid : Nat) (l : List OrderItem) :
    ∀ (db : DB), (∀ it ∈ l, (findProduct db it.product_id).isSome) →
      (restoreItems a oid db l).2 = true ∧
      (∀ pid q, stockOf db pid = some q →
        stockOf (restoreItems a oid db l).1 pid =
          some (q + ((l.filter (fun it => it.product_id == pid)).map
            OrderItem.quantity).sum)) ∧
      (restoreItems a oid db l).1.inventory_transactions =
        db.inventory_transactions ++ l.map
          (fun it => ⟨it.product_id, "in", it.quantity, "order", some oid, a⟩) := by
  induction l with
  | nil =>
    intro db _
    refine ⟨rfl, ?_, by simp [restoreItems]⟩
    intro pid q hq
    simpa [restoreItems] using hq
  | cons it rest ih =>
    intro db hl
    have hs := hl it (List.mem_cons_self it rest)
    cases hf : findProduct db it.product_id with
    | none =>
      rw [hf] at hs
      simp at hs
    | some p =>
      have hnext : ∀ x ∈ rest,
          (findProduct (addTxn (setStock db it.product_id (p.stock_quantity + it.quantity))
            ⟨it.product_id, "in", it.quantity, "order", some oid, a⟩) x.product_id).isSome := by
        intro x hx
        rw [findProduct_addTxn, findProduct_setStock_isSome]
        exact hl x (List.mem_cons_of_mem it hx)
      obtain ⟨ihs, ihst, ihtx⟩ := ih _ hnext
      refine ⟨?_, ?_, ?_⟩
      · show (restoreItems a oid db (it :: rest)).2 = true
        unfold restoreItems
        simp only [hf]
        exact ihs
      · intro pid q hq
        show stockOf (restoreItems a oid db (it :: rest)).1 pid = _
        unfold restoreItems
        simp only [hf]
        by_cases hpid : pid = it.product_id
        · subst hpid
          have hqp : q = p.stock_quantity := by
            unfold stockOf at hq
            rw [hf] at hq
            injection hq with hqv
            exact hqv.symm
          have hmid : stockOf (addTxn (setStock db it.product_id
              (p.stock_quantity + it.quantity))
              ⟨it.product_id, "in", it.quantity, "order", some oid, a⟩) it.product_id
              = some (p.stock_quantity + it.quantity) := by
            rw [stockOf_addTxn, stockOf_setStock_self, hf]
            rfl
          have hres := ihst it.product_id (p.stock_quantity + it.quantity) hmid
          rw [hres]
          have hbeq : (it.product_id == it.product_id) = true := by simp
          simp only [List.filter_cons, hbeq, if_true, List.map_cons, List.sum_cons]
          congr 1
          omega
        · have hmid : stockOf (addTxn (setStock db it.product_id
              (p.stock_quantity + it.quantity))
              ⟨it.product_id, "in", it.quantity, "order", some oid, a⟩) pid = some q := by
            rw [stockOf_addTxn, stockOf_setStock_other db it.product_id pid _ hpid]
            exact hq
          have hres := ihst pid q hmid
          rw [hres]
          have hbeq : (it.product_id == pid) = false := by
            simp only [beq_eq_false_iff_ne, ne_eq]
            omega
          simp only [List.filter_cons, hbeq, Bool.false_eq_true, if_false]
      · show (restoreItems a oid db (it :: rest)).1.inventory_transactions = _
        unfold restoreItems
        simp only [hf]
        rw [ihtx]
        show db.inventory_transactions
            ++ [⟨it.product_id, "in", it.quantity, "order", some oid, a⟩]
            ++ List.map _ rest = _
        rw [List.append_assoc]
        rfl

/-- Claim C4: for an order that is not yet cancelled, PATCH /:id/status
with 'cancelled' answers ok, adds back to every product the sum of the
quantities of the order's order_items rows for it, and appends one 'in'
inventory_transactions row with reference_type 'order' per order item. -/
theorem cancel_restores_inventory (db : DB) (a oid : Nat) (o : Order)
    (hfind : db.orders.find? (fun x => x.id == oid) = some o)
    (hnc : o.status ≠ "cancelled")
    (hprod : ∀ it ∈ db.order_items, it.order_id = oid →
      (findProduct db it.product_id).isSome) :
    (updateOrderStatus db a oid "cancelled").1 = .ok ∧
    (∀ pid q, stockOf db pid = some q →
      stockOf (updateOrderStatus db a oid "cancelled").2 pid =
        some (q + (((db.order_items.filter (fun it => it.order_id == oid)).filter
          (fun it => it.product_id == pid)).map OrderItem.quantity).sum)) ∧
    (updateOrderStatus db a oid "cancelled").2.inventory_transactions =
      db.inventory_transactions ++ (db.order_items.filter
        (fun it => it.order_id == oid)).map
        (fun it => ⟨it.product_id, "in", it.quantity, "order", some oid, a⟩) := by
  have hdb1 : ∀ it ∈ db.order_items.filter (fun x => x.order_id == oid),
      (findProduct (setOrderStatus db oid "cancelled") it.product_id).isSome := by
    intro it hit
    have hm := List.mem_filter.mp hit
    exact hprod it hm.1 (by simpa using hm.2)
  obtain ⟨hsucc, hst, htx⟩ := restoreItems_effects a oid
    (db.order_items.filter (fun x => x.order_id == oid))
    (setOrderStatus db oid "cancelled") hdb1
  have hguard : (("cancelled" : String) == "cancelled" && o.status != "cancelled") = true := by
    simp [hnc]
  unfold updateOrderStatus
  have hvs : validStatus "cancelled" = true := by decide
  simp only [hvs, Bool.not_true, Bool.false_eq_true, if_false, hfind, hguard, if_true]
  rcases hre : restoreItems a oid (setOrderStatus db oid "cancelled")
    ((setOrderStatus db oid "cancelled").order_items.filter
      (fun x => x.order_id == oid)) with ⟨db2, b⟩
  have hre' : restoreItems a oid (setOrderStatus db oid "cancelled")
      (db.order_items.filter (fun x => x.order_id == oid)) = (db2, b) := hre
  rw [hre'] at hsucc hst htx
  have hb : b = true := hsucc
  subst hb
  refine ⟨rfl, ?_, htx⟩
  intro pid q hq
  exact hst pid q hq

/-- Witness for C4 at a concrete pending order. -/
theorem cancel_restores_witness :
    (updateOrderStatus wDBOrder 1 1 "cancelled").1 = .ok ∧
    stockOf (updateOrderStatus wDBOrder 1 1 "cancelled").2 1 =
      some (4 + (((wDBOrder.order_items.filter (fun it => it.order_id == 1)).filter
        (fun it => it.product_id == 1)).map OrderItem.quantity).sum) :=
  ⟨(cancel_restores_inventory wDBOrder 1 1 ⟨1, "N", 7, none, "pending", 12, 0⟩
      (by decide) (by decide) (by decide)).1,
   (cancel_restores_inventory wDBOrder 1 1 ⟨1, "N", 7, none, "pending", 12, 0⟩
      (by decide) (by decide) (by decide)).2.1 1 4 (by decide)⟩

/-! ## Claim C1: the effects of a successful order creation -/

theorem findProduct_isSome_of_active (db : DB) (pid : Nat) (p : Product)
    (h : findActiveProduct db pid = some p) : (findProduct db pid).isSome := by
  unfold findActiveProduct at h
  unfold findProduct
  rw [List.find?_isSome]
  have hmem := List.mem_of_find?_eq_some h
  have hpred := List.find?_some h
  simp only [Bool.and_eq_true, beq_iff_eq] at hpred
  exact ⟨p, hmem, by simp [hpred.1]⟩

theorem insertItems_orders (oid uid : Nat) (vs : List VItem) :
    ∀ db : DB, (insertItems oid uid db vs).orders = db.orders := by
  induction vs with
  | nil => intro db; rfl
  | cons v rest ih =>
    intro db
    unfold insertItems
    rw [ih]
    rfl

theorem insertItems_order_items (oid uid : Nat) (vs : List VItem) :
    ∀ db : DB, (insertItems oid uid db vs).order_items = db.order_items
      ++ vs.map (fun v => ⟨oid, v.product_id, v.quantity, v.unit_price, v.total_price⟩) := by
  induction vs with
  | nil => intro db; simp [insertItems]
  | cons v rest ih =>
    intro db
    unfold insertItems
    rw [ih]
    simp [addTxn, setStock]

theorem insertItems_txns (oid uid : Nat) (vs : List VItem) :
    ∀ db : DB, (insertItems oid uid db vs).inventory_transactions =
      db.inventory_transactions
        ++ vs.map (fun v => ⟨v.product_id, "out", v.quantity, "order", some oid, uid⟩) := by
  induction vs with
  | nil => intro db; simp [insertItems]
  | cons v rest ih =>
    intro db
    unfold insertItems
    rw [ih]
    simp [addTxn, setStock]

theorem insertItems_stock_other (oid uid : Nat) (vs : List VItem) :
    ∀ (db : DB) (pid : Nat), pid ∉ vs.map VItem.product_id →
      stockOf (insertItems oid uid db vs) pid = stockOf db pid := by
  induction vs with
  | nil => intro db pid _; rfl
  | cons v rest ih =>
    intro db pid hpid
    rw [List.map_cons] at hpid
    have hne : pid ≠ v.product_id := fun he => hpid (he ▸ List.mem_cons_self _ _)
    have hrest : pid ∉ rest.map VItem.product_id :=
      fun hm => hpid (List.mem_cons_of_mem _ hm)
    unfold insertItems
    rw [ih _ _ hrest, stockOf_addTxn, stockOf_setStock_other _ _ _ _ hne]
    rfl

theorem insertItems_stock (oid uid : Nat) (vs : List VItem) :
    ∀ db : DB, (vs.map VItem.product_id).Nodup →
      (∀ v ∈ vs, (findProduct db v.product_id).isSome) →
      ∀ v ∈ vs, stockOf (insertItems oid uid db vs) v.product_id =
        some (v.product.stock_quantity - v.quantity) := by
  induction vs with
  | nil =>
    intro db _ _ v hv
    cases hv
  | cons w rest ih =>
    intro db hnd hex v hv
    rw [List.map_cons] at hnd
    have hw_nin := (List.nodup_cons.mp hnd).1
    have hnd' := (List.nodup_cons.mp hnd).2
    unfold insertItems
    rcases List.mem_cons.mp hv with rfl | hv'
    · rw [insertItems_stock_other oid uid rest _ _ hw_nin, stockOf_addTxn,
        stockOf_setStock_self]
      have hs := hex v (List.mem_cons_self _ _)
      show (findProduct db v.product_id).map
        (fun _ => v.product.stock_quantity - v.quantity) = _
      cases hf : findProduct db v.product_id with
      | none =>
        rw [hf] at hs
        simp at hs
      | some p => rfl
    · exact ih _ hnd' (fun x hx => by
        rw [findProduct_addTxn, findProduct_setStock_isSome]
        exact hex x (List.mem_cons_of_mem _ hx)) v hv'

/-- Claim C1 counterexample: a request whose two line items name the same
active product, each within stock, is accepted (201), yet the final stock
is the validation-time snapshot minus only the last item's quantity (10 - 3
= 7), not the per-item decrement 10 - (3 + 3): the write loop uses
`item.product.stock_quantity`, the snapshot read during validation, so with
duplicate product ids the earlier decrement is overwritten. -/
theorem createOrder_duplicate_items_cex :
    findActiveProduct wDB 1 = some wProduct ∧
    (CreateOrderReq.items ⟨none, [⟨1, 3⟩, ⟨1, 3⟩]⟩).all
      (fun it => it.product_id == 1 && decide (it.quantity ≤ wProduct.stock_quantity)) = true ∧
    (createOrder wDB 7 ⟨none, [⟨1, 3⟩, ⟨1, 3⟩]⟩ 0 "N").1 = .created 1 ∧
    stockOf (createOrder wDB 7 ⟨none, [⟨1, 3⟩, ⟨1, 3⟩]⟩ 0 "N").2 1 = some 7 ∧
    (7 : Int) ≠ 10 - (3 + 3) :=
  ⟨by decide, by decide, by decide, by decide, by decide⟩

/-- Claim C1 (amended to items with pairwise-distinct product ids): a
well-formed request whose items all reference active products with
sufficient stock is accepted with 201; exactly one orders row with status
'pending' is appended; one order_items row per line item is appended; one
'out' inventory_transactions row with reference_type 'order' per line item
is appended; each referenced product's stock_quantity is decremented by
that item's quantity; and no other product's stock changes.  (With
duplicated product ids the per-item decrement fails, as the counterexample
shows.) -/
theorem createOrder_success_effects (db : DB) (uid : Nat) (req : CreateOrderReq)
    (now : Nat) (onum : String)
    (hv : validOrderReq req = true)
    (hp : projectOk db req.project_id = true)
    (hgood : ∀ it ∈ req.items, ∃ p, findActiveProduct db it.product_id = some p ∧
      it.quantity ≤ p.stock_quantity)
    (hnd : (req.items.map OrderItemReq.product_id).Nodup) :
    (createOrder db uid req now onum).1 = .created db.next_order_id ∧
    (∃ amt, (createOrder db uid req now onum).2.orders =
      db.orders ++ [⟨db.next_order_id, onum, uid, req.project_id, "pending", amt, now⟩]) ∧
    (createOrder db uid req now onum).2.order_items.map
        (fun r => (r.order_id, r.product_id, r.quantity))
      = db.order_items.map (fun r => (r.order_id, r.product_id, r.quantity))
        ++ req.items.map (fun it => (db.next_order_id, it.product_id, it.quantity)) ∧
    (createOrder db uid req now onum).2.inventory_transactions.map
        (fun t => (t.product_id, t.transaction_type, t.quantity,
          t.reference_type, t.reference_id))
      = db.inventory_transactions.map (fun t => (t.product_id, t.transaction_type,
          t.quantity, t.reference_type, t.reference_id))
        ++ req.items.map (fun it => (it.product_id, "out", it.quantity, "order",
          some db.next_order_id)) ∧
    (∀ it ∈ req.items, ∀ p, findActiveProduct db it.product_id = some p →
      stockOf (createOrder db uid req now onum).2 it.product_id
        = some (p.stock_quantity - it.quantity)) ∧
    (∀ pid, pid ∉ req.items.map OrderItemReq.product_id →
      stockOf (createOrder db uid req now onum).2 pid = stockOf db pid) := by
  obtain ⟨vs, total, hval⟩ := validateItems_ok_of_good db req.items hgood
  obtain ⟨hfacts, hproj⟩ := validateItems_ok_facts db req.items vs total hval
  have hpids : vs.map VItem.product_id = req.items.map OrderItemReq.product_id := by
    have hc := congrArg (List.map Prod.fst) hproj
    simpa [List.map_map, Function.comp] using hc
  unfold createOrder
  simp only [hv, hp, Bool.not_true, Bool.false_eq_true, if_false, hval]
  refine ⟨trivial, ?_, ?_, ?_, ?_, ?_⟩
  · exact ⟨total, by rw [insertItems_orders]⟩
  · rw [insertItems_order_items]
    show (db.order_items ++ _).map _ = _
    rw [List.map_append, List.map_map]
    congr 1
    have hc := congrArg (List.map
      (fun pr : Nat × Int => (db.next_order_id, pr.1, pr.2))) hproj
    simpa [List.map_map, Function.comp] using hc
  · rw [insertItems_txns]
    show (db.inventory_transactions ++ _).map _ = _
    rw [List.map_append, List.map_map]
    congr 1
    have hc := congrArg (List.map
      (fun pr : Nat × Int => (pr.1, ("out" : String), pr.2, ("order" : String),
        some db.next_order_id))) hproj
    simpa [List.map_map, Function.comp] using hc
  · intro it hit p hfa
    have hpair : (it.product_id, it.quantity) ∈ req.items.map
        (fun x => (x.product_id, x.quantity)) :=
      List.mem_map_of_mem _ hit
    rw [← hproj] at hpair
    obtain ⟨v, hvmem, hveq⟩ := List.mem_map.mp hpair
    have hvpid : v.product_id = it.product_id := congrArg Prod.fst hveq
    have hvq : v.quantity = it.quantity := congrArg Prod.snd hveq
    have hvprod := (hfacts v hvmem).1
    rw [hvpid, hfa] at hvprod
    have hpv : p = v.product := Option.some.inj hvprod
    have hres := insertItems_stock db.next_order_id uid vs { db with orders := db.orders ++ [⟨db.next_order_id, onum, uid, req.project_id, "pending", total, now⟩], next_order_id := db.next_order_id + 1 } (by rw [hpids]; exact hnd) (fun x hx => findProduct_isSome_of_active db x.product_id x.product (hfacts x hx).1) v hvmem
    rw [hpv, ← hvq, ← hvpid]
    exact hres
  · intro pid hpid
    rw [insertItems_stock_other db.next_order_id uid vs _ pid
      (by rw [hpids]; exact hpid)]
    rfl

/-- Witness for the amended C1: a two-product order on a concrete database. -/
theorem createOrder_success_witness :
    (createOrder wDB2 7 ⟨some 1, [⟨1, 3⟩, ⟨2, 5⟩]⟩ 0 "N").1 = .created 1 ∧
    (∀ it ∈ (CreateOrderReq.items ⟨some 1, [⟨1, 3⟩, ⟨2, 5⟩]⟩),
      ∀ p, findActiveProduct wDB2 it.product_id = some p →
      stockOf (createOrder wDB2 7 ⟨some 1, [⟨1, 3⟩, ⟨2, 5⟩]⟩ 0 "N").2 it.product_id
        = some (p.stock_quantity - it.quantity)) :=
  ⟨(createOrder_success_effects wDB2 7 ⟨some 1, [⟨1, 3⟩, ⟨2, 5⟩]⟩ 0 "N"
      (by decide) (by decide)
      (by intro it hit
          cases hit with
          | head => exact ⟨⟨1, "Widget", "SKU1", 2, 10, "active"⟩, by decide, by decide⟩
          | tail _ h2 =>
            cases h2 with
            | head => exact ⟨⟨2, "Gadget", "SKU2", 3, 8, "active"⟩, by decide, by decide⟩
            | tail _ h3 => cases h3)
      (by decide)).1,
   (createOrder_success_effects wDB2 7 ⟨some 1, [⟨1, 3⟩, ⟨2, 5⟩]⟩ 0 "N"
      (by decide) (by decide)
      (by intro it hit
          cases hit with
          | head => exact ⟨⟨1, "Widget", "SKU1", 2, 10, "active"⟩, by decide, by decide⟩
          | tail _ h2 =>
            cases h2 with
            | head => exact ⟨⟨2, "Gadget", "SKU2", 3, 8, "active"⟩, by decide, by decide⟩
            | tail _ h3 => cases h3)
      (by decide)).2.2.2.2.1⟩

/-! ## Claim C9: pagination of GET /api/orders -/

theorem le_jsCeil_mul (t l : Nat) (hl : 1 ≤ l) : t ≤ l * ((t + l - 1) / l) := by
  have h1 := Nat.div_add_mod (t + l - 1) l
  have h2 : (t + l - 1) % l < l := Nat.mod_lt _ (by omega)
  omega

theorem jsCeil_le (t l m : Nat) (hl : 1 ≤ l) (h : t ≤ l * m) : (t + l - 1) / l ≤ m := by
  have h1 : t + l - 1 < (m + 1) * l := by
    have hs : (m + 1) * l = m * l + l := Nat.succ_mul m l
    rw [hs, Nat.mul_comm m l]
    omega
  have h2 := (Nat.div_lt_iff_lt_mul (by omega : 0 < l)).mpr h1
  omega

/-- Claim C9: for a valid query, GET /api/orders returns at most `limit`
rows, namely the `LIMIT/OFFSET` slice of the filtered rows sorted by
created_at descending, and the pagination object reports the page, the
limit, the total filtered count, and `pages` equal to the ceiling of
total divided by limit (the least number of pages covering all rows). -/
theorem listOrders_pagination_correct (db : DB) (u : User) (q : ListOrdersQuery)
    (hq : validListQuery q = true) :
    ∃ rows pag, listOrders db u q = .ok rows pag ∧
      rows.length ≤ q.limit.getD 20 ∧
      rows = (((sortOrdersDesc (db.orders.filter (orderFilter u q))).drop
        ((q.page.getD 1 - 1) * q.limit.getD 20)).take (q.limit.getD 20)).map
          (viewOrder db) ∧
      pag.page = q.page.getD 1 ∧
      pag.limit = q.limit.getD 20 ∧
      pag.total = (db.orders.filter (orderFilter u q)).length ∧
      pag.total ≤ pag.limit * pag.pages ∧
      (∀ m : Nat, pag.total ≤ pag.limit * m → pag.pages ≤ m) := by
  have hl : 1 ≤ q.limit.getD 20 := by
    unfold validListQuery at hq
    cases hlim : q.limit with
    | none => simp
    | some l =>
      rw [hlim] at hq
      simp only [Bool.and_eq_true, decide_eq_true_eq] at hq
      simpa using hq.2.1
  unfold listOrders
  rw [if_neg (by simp [hq])]
  refine ⟨_, _, rfl, ?_, rfl, rfl, rfl, rfl, ?_, ?_⟩
  · rw [List.length_map, List.length_take]
    exact Nat.min_le_left _ _
  · exact le_jsCeil_mul _ _ hl
  · intro m hm
    exact jsCeil_le _ _ m hl hm

/-- Witness for C9 at a concrete database and the default query. -/
theorem listOrders_pagination_witness :
    ∃ rows pag, listOrders wDBOrder wAdmin ⟨none, none, none, none, none⟩
      = .ok rows pag := by
  obtain ⟨rows, pag, h, -⟩ := listOrders_pagination_correct wDBOrder wAdmin
    ⟨none, none, none, none, none⟩ (by decide)
  exact ⟨rows, pag, h⟩

/-! ## Claim C10: per-agency isolation of order data -/

theorem mem_insertDesc (o x : Order) (l : List Order) :
    x ∈ insertDesc o l ↔ x = o ∨ x ∈ l := by
  induction l with
  | nil => simp [insertDesc]
  | cons a t ih =>
    unfold insertDesc
    by_cases hc : a.created_at < o.created_at
    · simp [hc]
    · simp [hc, ih]
      tauto

theorem mem_sortOrdersDesc (x : Order) (l : List Order) :
    x ∈ sortOrdersDesc l ↔ x ∈ l := by
  induction l with
  | nil => simp [sortOrdersDesc]
  | cons a t ih =>
    unfold sortOrdersDesc
    rw [mem_insertDesc]
    simp [ih]

theorem orderFilter_agency_own (u : User) (q : ListOrdersQuery) (o : Order)
    (hrole : u.role = "agency") (h : orderFilter u q o = true) : o.user_id = u.id := by
  unfold orderFilter at h
  rw [hrole] at h
  simp only [Bool.and_eq_true] at h
  have h1 := h.1.1.1
  simpa using h1

theorem filter_orderFilter_agency (u : User) (q : ListOrdersQuery) (l : List Order)
    (hrole : u.role = "agency") :
    l.filter (orderFilter u q) = (l.filter (fun o => o.user_id == u.id)).filter
      (fun o => (match q.status with | none => true | some s => o.status == s) &&
        (match q.user_id with
         | none => true
         | some uid => if u.role == "admin" then o.user_id == uid else true) &&
        (match q.project_id with | none => true | some pid => o.project_id == some pid)) := by
  rw [List.filter_filter]
  apply List.filter_congr
  intro o ho
  unfold orderFilter
  rw [hrole]
  simp [Bool.and_comm, Bool.and_assoc, Bool.and_left_comm]

/-- Claim C10: for an agency requester, GET /api/orders returns only the
requester's own orders; GET /api/orders/:id answers 403 for an order owned
by someone else; and the list response is unchanged between two databases
that agree on users, projects and the requester's own orders — so adding
or modifying other users' orders cannot affect it. -/
theorem orders_agency_isolation (db db2 : DB) (u : User) (q : ListOrdersQuery)
    (oid : Nat) (hrole : u.role = "agency") :
    (∀ rows pag, listOrders db u q = .ok rows pag →
      ∀ v ∈ rows, v.order.user_id = u.id) ∧
    (∀ o, db.orders.find? (fun x => x.id == oid) = some o → o.user_id ≠ u.id →
      getOrder db u oid = .forbidden) ∧
    (db2.users = db.users → db2.projects = db.projects →
     db2.orders.filter (fun o => o.user_id == u.id)
       = db.orders.filter (fun o => o.user_id == u.id) →
     listOrders db2 u q = listOrders db u q) := by
  refine ⟨?_, ?_, ?_⟩
  · intro rows pag hok v hv
    unfold listOrders at hok
    by_cases hval : validListQuery q = true
    · rw [if_neg (by simp [hval])] at hok
      injection hok with h1 h2
      subst h1
      obtain ⟨o, ho, rfl⟩ := List.mem_map.mp hv
      have hmem : o ∈ db.orders.filter (orderFilter u q) := by
        have hdrop := List.mem_of_mem_take ho
        have hsort := List.mem_of_mem_drop hdrop
        exact (mem_sortOrdersDesc o _).mp hsort
      exact orderFilter_agency_own u q o hrole (List.mem_filter.mp hmem).2
    · rw [if_pos (by simpa using hval)] at hok
      cases hok
  · intro o hfind hne
    unfold getOrder
    simp only [hfind]
    have hc : (u.role == "agency" && o.user_id != u.id) = true := by
      simp [hrole, hne]
    simp [hc]
  · intro hu hp hown
    unfold listOrders
    by_cases hval : validListQuery q = true
    · rw [if_neg (by simp [hval]), if_neg (by simp [hval])]
      have hview : viewOrder db2 = viewOrder db :=
        funext (fun o => by unfold viewOrder; rw [hu, hp])
      rw [filter_orderFilter_agency u q db2.orders hrole,
        filter_orderFilter_agency u q db.orders hrole, hown, hview]
    · rw [if_pos (by simpa using hval), if_pos (by simpa using hval)]

/-- Witness for C10: the agency user cannot read user 8's order, and
removing user 8's order leaves the agency user's list response unchanged. -/
theorem orders_agency_isolation_witness :
    getOrder wDBIso wAgency 2 = .forbidden ∧
    listOrders wDBIso2 wAgency ⟨none, none, none, none, none⟩
      = listOrders wDBIso wAgency ⟨none, none, none, none, none⟩ :=
  ⟨(orders_agency_isolation wDBIso wDBIso2 wAgency ⟨none, none, none, none, none⟩ 2
      (by decide)).2.1 wOrd8 (by decide) (by decide),
   (orders_agency_isolation wDBIso wDBIso2 wAgency ⟨none, none, none, none, none⟩ 2
      (by decide)).2.2 (by decide) (by decide) (by decide)⟩
